import Mathlib

/-!
Verification of the TypedRPC repository (src/typedrpc, src/urpctools) against its
natural-language specification.

The development shallowly embeds the Python sources:

* Python runtime values are the mutual inductive family `PyVal` / `PyList` / `PyFields`
  (dataclass instances are `PyVal.dataclassObj`, Python None is `PyVal.none`).
* Python exceptions are values of `PyError`; fallible code returns `Except PyError _`.
* The two standard-library codecs that the repository composes with
  (base64.b64encode/b64decode and datetime.isoformat/fromisoformat) are external to
  the repository; they are modelled as concrete injective renderings with exact
  parsing inverses, which is the contract the source relies on.  The byte rendering
  of a JSON document by json.dumps followed by json.loads is likewise the stdlib's
  exact inverse pair on JSON documents; where a claim composes the two, the string
  layer is elided and both sides work on the JSON tree (the image of json.loads).
  Where only one direction appears (bytes put on a socket), a concrete renderer
  `jsonDumpsDefault` models json.dumps with the default encoder, and the behaviour
  of json.loads on a received reply is an explicit function parameter.
* Sockets are modelled by a function from the bytes written on a connection to the
  bytes read back (or a socket-level error).
-/

/-- Python exception values raised by the embedded code.  The constructors carry the
exception class of the original: `typeError` is builtin TypeError (raised by
APIMessage.__post_init__ for a missing required field, by a dataclass constructor for
an unexpected keyword, and by json.JSONEncoder.default for an unsupported type),
`jsonDecodeError` is json.JSONDecodeError, `rpcError` is typedrpc.service.RPCError,
`attributeError` is builtin AttributeError, `valueError` is builtin ValueError, and
`missingValueError` is dacite.MissingValueError. -/
inductive PyError where
  | typeError (msg : String)
  | jsonDecodeError (msg : String)
  | rpcError (msg : String)
  | attributeError (name : String)
  | valueError (msg : String)
  | missingValueError (msg : String)
  deriving DecidableEq, Repr

deriving instance DecidableEq for Except

/-- Terminator byte of the frame transport, sockets.py line 28: `_eof: bytes = b'\0'`. -/
def eofByte : String := "\x00"

/-- Reserved ping request payload, sockets.py line 25: `_ping_req = b'ping'`. -/
def pingReq : String := "ping"

/-- Reserved pong reply payload, sockets.py line 24: `_ping_resp = b'pong'`. -/
def pingResp : String := "pong"

/-- Whitespace bytes stripped by Python bytes.strip(): space, tab, LF, CR, VT, FF. -/
def isPySpace (c : Char) : Bool :=
  c = ' ' || c = '\t' || c = '\n' || c = '\r' || c = Char.ofNat 11 || c = Char.ofNat 12

/-- Model of `resp_data_raw.rstrip(b'\0').strip()` in RPCSocketService._recv_data
(sockets.py line 53): drop trailing terminator bytes, then strip surrounding
whitespace.  The accumulation of socket chunks up to the terminator or a zero-length
read is collapsed into the single raw byte string received on the connection. -/
def stripData (raw : String) : String :=
  let noEof := (raw.toList.reverse.dropWhile (fun c => c = Char.ofNat 0)).reverse
  let noLead := noEof.dropWhile isPySpace
  String.mk (noLead.reverse.dropWhile isPySpace).reverse

/-- Renders a value below 16 as one lowercase hexadecimal character, by
arithmetic on the character code. -/
def hexChar (n : Nat) : Char :=
  if n < 10 then Char.ofNat (48 + n) else Char.ofNat (87 + n)

/-- Parses one lowercase hexadecimal character back to its value. -/
def hexCharVal (c : Char) : Option Nat :=
  if 48 ≤ c.toNat ∧ c.toNat ≤ 57 then some (c.toNat - 48)
  else if 97 ≤ c.toNat ∧ c.toNat ≤ 102 then some (c.toNat - 87)
  else Option.none

/-- Model of base64.b64encode followed by .decode("ascii") (models.py line 75):
an injective rendering of a byte string as ASCII text.  The model renders each byte
as two hexadecimal characters; the repository relies only on the rendering being
injective with `b64decode` as its exact inverse. -/
def b64encodeModel : List Nat → List Char
  | [] => []
  | b :: rest => hexChar (b / 16) :: hexChar (b % 16) :: b64encodeModel rest

/-- Model of base64.b64decode (the `bytes` type hook of
SerializableDataclass._from_dict_config, models.py line 142), exact inverse of
`b64encodeModel` on its image. -/
def b64decodeModel : List Char → Option (List Nat)
  | [] => some []
  | c1 :: c2 :: rest =>
    match hexCharVal c1, hexCharVal c2, b64decodeModel rest with
    | some h, some l, some bs => some ((h * 16 + l) :: bs)
    | _, _, _ => Option.none
  | _ => Option.none

theorem hexCharVal_hexChar {n : Nat} (h : n < 16) : hexCharVal (hexChar n) = some n := by
  interval_cases n <;> decide

theorem b64decodeModel_b64encodeModel (bs : List Nat) (h : ∀ b ∈ bs, b < 256) :
    b64decodeModel (b64encodeModel bs) = some bs := by
  induction bs with
  | nil => rfl
  | cons b rest ih =>
    have hb : b < 256 := h b (by simp)
    have hhi : b / 16 < 16 := by omega
    have hlo : b % 16 < 16 := Nat.mod_lt _ (by omega)
    simp only [b64encodeModel, b64decodeModel, hexCharVal_hexChar hhi,
      hexCharVal_hexChar hlo, ih (fun x hx => h x (by simp [hx]))]
    have : b / 16 * 16 + b % 16 = b := by omega
    simp [this]

/-- Timestamp value: the components of a Python datetime, each a bounded natural
number (year below 10000, month and day below 100 in the rendering, and so on).
Time zones are not modelled; isoformat and fromisoformat round-trip them the same
way they round-trip the naive components. -/
structure PyDateTime where
  year : Nat
  month : Nat
  day : Nat
  hour : Nat
  minute : Nat
  second : Nat
  microsecond : Nat
  deriving DecidableEq, Repr

/-- Bounds under which a `PyDateTime` denotes a valid Python datetime (the real
constructor enforces tighter calendar bounds; these suffice for the fixed-width
ISO-8601 rendering to be injective). -/
def PyDateTime.wf (d : PyDateTime) : Bool :=
  d.year < 10000 && d.month < 100 && d.day < 100 && d.hour < 100 &&
    d.minute < 100 && d.second < 100 && d.microsecond < 1000000

/-- Renders a value as exactly two decimal digits. -/
def pad2 (n : Nat) : List Char := [hexChar (n / 10 % 10), hexChar (n % 10)]

/-- Renders a value as exactly four decimal digits. -/
def pad4 (n : Nat) : List Char :=
  [hexChar (n / 1000 % 10), hexChar (n / 100 % 10), hexChar (n / 10 % 10), hexChar (n % 10)]

/-- Renders a value as exactly six decimal digits. -/
def pad6 (n : Nat) : List Char :=
  [hexChar (n / 100000 % 10), hexChar (n / 10000 % 10), hexChar (n / 1000 % 10),
    hexChar (n / 100 % 10), hexChar (n / 10 % 10), hexChar (n % 10)]

/-- Model of datetime.isoformat (models.py line 79): the ISO-8601 rendering
YYYY-MM-DDTHH:MM:SS, with .ffffff appended exactly when the microsecond field is
nonzero, as in CPython. -/
def isoformatModel (d : PyDateTime) : String :=
  String.mk (pad4 d.year ++ '-' :: pad2 d.month ++ '-' :: pad2 d.day ++
    'T' :: pad2 d.hour ++ ':' :: pad2 d.minute ++ ':' :: pad2 d.second ++
    (if d.microsecond = 0 then [] else '.' :: pad6 d.microsecond))

/-- Parses two decimal digit characters into a value below 100. -/
def digits2 (c1 c2 : Char) : Option Nat :=
  match hexCharVal c1, hexCharVal c2 with
  | some a, some b => if a < 10 && b < 10 then some (a * 10 + b) else Option.none
  | _, _ => Option.none

/-- Model of datetime.fromisoformat (the `datetime` type hook of
SerializableDataclass._from_dict_config, models.py line 142) on the two output
shapes of `isoformatModel`: the fixed-width ISO-8601 layouts with and without
the microsecond part.  CPython accepts further layouts; only the images of
isoformat matter to the repository, and on them this parse is the exact
inverse. -/
def fromisoformatModel (s : String) : Option PyDateTime :=
  match s.toList with
  | [a1, a2, a3, a4, '-', b1, b2, '-', c1, c2, 'T', d1, d2, ':', e1, e2, ':', f1, f2] =>
    match digits2 a1 a2, digits2 a3 a4, digits2 b1 b2, digits2 c1 c2,
        digits2 d1 d2, digits2 e1 e2, digits2 f1 f2 with
    | some yh, some yl, some mo, some da, some ho, some mi, some se =>
      some ⟨yh * 100 + yl, mo, da, ho, mi, se, 0⟩
    | _, _, _, _, _, _, _ => Option.none
  | [a1, a2, a3, a4, '-', b1, b2, '-', c1, c2, 'T', d1, d2, ':', e1, e2, ':', f1, f2,
     '.', u1, u2, u3, u4, u5, u6] =>
    match digits2 a1 a2, digits2 a3 a4, digits2 b1 b2, digits2 c1 c2,
        digits2 d1 d2, digits2 e1 e2, digits2 f1 f2,
        digits2 u1 u2, digits2 u3 u4, digits2 u5 u6 with
    | some yh, some yl, some mo, some da, some ho, some mi, some se,
      some uh, some um, some ul =>
      if uh * 10000 + um * 100 + ul = 0 then Option.none
      else some ⟨yh * 100 + yl, mo, da, ho, mi, se, uh * 10000 + um * 100 + ul⟩
    | _, _, _, _, _, _, _, _, _, _ => Option.none
  | _ => Option.none

theorem digits2_hexChar_mod (a b : Nat) :
    digits2 (hexChar (a % 10)) (hexChar (b % 10)) = some (a % 10 * 10 + b % 10) := by
  have h1 : a % 10 < 10 := Nat.mod_lt _ (by omega)
  have h2 : b % 10 < 10 := Nat.mod_lt _ (by omega)
  simp [digits2, hexCharVal_hexChar (show a % 10 < 16 by omega),
    hexCharVal_hexChar (show b % 10 < 16 by omega), h1, h2]

set_option maxHeartbeats 1000000 in
theorem fromisoformatModel_isoformatModel (d : PyDateTime) (h : d.wf = true) :
    fromisoformatModel (isoformatModel d) = some d := by
  obtain ⟨y, mo, da, ho, mi, se, us⟩ := d
  simp only [PyDateTime.wf, Bool.and_eq_true, decide_eq_true_eq] at h
  obtain ⟨⟨⟨⟨⟨⟨hy, hmo⟩, hda⟩, hho⟩, hmi⟩, hse⟩, hus⟩ := h
  by_cases hz : us = 0
  · subst hz
    simp only [isoformatModel, pad4, pad2, reduceIte, List.append_nil,
      List.cons_append, List.nil_append, fromisoformatModel, String.toList,
      digits2_hexChar_mod, Option.some.injEq, PyDateTime.mk.injEq]
    exact ⟨by omega, by omega, by omega, by omega, by omega, by omega, trivial⟩
  · simp only [isoformatModel, pad4, pad2, pad6, if_neg hz, List.cons_append,
      List.nil_append, List.append_nil, fromisoformatModel, String.toList,
      digits2_hexChar_mod]
    have hne : ¬(us / 100000 % 10 * 10 + us / 10000 % 10) * 10000 +
        (us / 1000 % 10 * 10 + us / 100 % 10) * 100 +
        (us / 10 % 10 * 10 + us % 10) = 0 := by omega
    simp only [hne, reduceIte, Option.some.injEq, PyDateTime.mk.injEq]
    refine ⟨by omega, by omega, by omega, by omega, by omega, by omega, by omega⟩

mutual

/-- Python runtime values, as far as the repository manipulates them.  Dataclass
instances (the SerializableDataclass / APIMessage records) are `dataclassObj`;
Python None is `none`; enumeration members carry whether their class is the
repository's StrEnum (`isStr = true`) or a plain enum.Enum, their name, and their
value.  Lists and field lists are the mutually inductive `PyList` / `PyFields` so
that functions over values are structurally recursive. -/
inductive PyVal where
  | none
  | bool (b : Bool)
  | int (n : Int)
  | str (s : String)
  | bytes (bs : List Nat)
  | datetime (d : PyDateTime)
  | list (xs : PyList)
  | set (xs : PyList)
  | dict (kvs : PyFields)
  | enumMember (isStr : Bool) (name : String) (val : PyVal)
  | dataclassObj (fields : PyFields)
  deriving DecidableEq, Repr

inductive PyList where
  | nil
  | cons (v : PyVal) (rest : PyList)
  deriving DecidableEq, Repr

inductive PyFields where
  | nil
  | cons (name : String) (v : PyVal) (rest : PyFields)
  deriving DecidableEq, Repr
end

/-- Looks a key up in a field list (Python dict access / dict.get). -/
def pyFieldsLookup (kvs : PyFields) (key : String) : Option PyVal :=
  match kvs with
  | .nil => Option.none
  | .cons n v rest => if n = key then some v else pyFieldsLookup rest key

/-- Key list of a field list, in order. -/
def pyFieldsNames : PyFields → List String
  | .nil => []
  | .cons n _ rest => n :: pyFieldsNames rest

/-- Membership in a value list (Python `in`, by equality). -/
def pyListContains (xs : PyList) (v : PyVal) : Bool :=
  match xs with
  | .nil => false
  | .cons w rest => w = v || pyListContains rest v

/-- Duplicate-freedom of a value list, the canonical representation of a Python
set in this model. -/
def pyListNodup : PyList → Bool
  | .nil => true
  | .cons v rest => !pyListContains rest v && pyListNodup rest

/-- Removes every occurrence of a value from a list. -/
def pyListRemoveAll (v : PyVal) : PyList → PyList
  | .nil => .nil
  | .cons w rest =>
    if w = v then pyListRemoveAll v rest else .cons w (pyListRemoveAll v rest)

/-- Collapse of duplicates when a Python set is built from a list (set(...)):
the first occurrence of each value is kept, later duplicates are dropped. -/
def pyListDedup : PyList → PyList
  | .nil => .nil
  | .cons v rest => .cons v (pyListRemoveAll v (pyListDedup rest))

/-- Model of models.py dict_skip_none_factory (lines 54-58): keeps only the
pairs whose value is not None. -/
def skipNoneFactory : PyFields → PyFields
  | .nil => .nil
  | .cons n v rest =>
    if v = .none then skipNoneFactory rest else .cons n v (skipNoneFactory rest)

mutual
/-- Model of dataclasses.asdict with a dict factory (models.py to_dict, line 154,
and the encoder defaults at lines 85 and 96).  Dataclass instances are converted
to dicts recursively with the factory applied to each dataclass level's pairs;
lists and dicts are rebuilt with their elements converted; every other value
(bytes, sets, datetimes, enumeration members) is deep-copied unchanged, exactly
as CPython's _asdict_inner does. -/
def pyAsdict (factory : PyFields → PyFields) : PyVal → PyVal
  | .dataclassObj fs => .dict (factory (pyAsdictFields factory fs))
  | .dict kvs => .dict (pyAsdictFields factory kvs)
  | .list xs => .list (pyAsdictList factory xs)
  | v => v

def pyAsdictList (factory : PyFields → PyFields) : PyList → PyList
  | .nil => .nil
  | .cons v rest => .cons (pyAsdict factory v) (pyAsdictList factory rest)

def pyAsdictFields (factory : PyFields → PyFields) : PyFields → PyFields
  | .nil => .nil
  | .cons n v rest => .cons n (pyAsdict factory v) (pyAsdictFields factory rest)
end

mutual
/-- Normalisation of a value to its JSON document tree by json.dumps with
JSONExtendedEncoder (models.py lines 62-86), fused with the encoder's default
hooks: bytes are base64-rendered to a string, sets become arrays, datetimes
become ISO strings, StrEnum members are stored by name, plain enum members by
their (re-encoded) value, and dataclasses by their asdict dict.  The final byte
rendering of the tree and its parse by json.loads are the stdlib's exact inverse
pair and are elided, so decode-side functions consume this tree directly. -/
def toTreeExtended : PyVal → PyVal
  | .none => .none
  | .bool b => .bool b
  | .int n => .int n
  | .str s => .str s
  | .bytes bs => .str (String.mk (b64encodeModel bs))
  | .datetime d => .str (isoformatModel d)
  | .list xs => .list (toTreeExtendedList xs)
  | .set xs => .list (toTreeExtendedList xs)
  | .dict kvs => .dict (toTreeExtendedFields kvs)
  | .enumMember true n _ => .str n
  | .enumMember false _ v => toTreeExtended v
  | .dataclassObj fs => .dict (toTreeExtendedFields fs)

def toTreeExtendedList : PyList → PyList
  | .nil => .nil
  | .cons v rest => .cons (toTreeExtended v) (toTreeExtendedList rest)

def toTreeExtendedFields : PyFields → PyFields
  | .nil => .nil
  | .cons n v rest => .cons n (toTreeExtended v) (toTreeExtendedFields rest)
end

mutual
/-- Normalisation of a value to its JSON document tree by json.dumps with
JSONSkipNoneEncoder (models.py lines 89-97): identical to `toTreeExtended`
except that when the encoder's default receives a dataclass instance it calls
asdict with dict_skip_none_factory, so None-valued fields are dropped at every
dataclass level; dict values that are None are untouched because dicts never
reach the default hook. -/
def toTreeSkipNone : PyVal → PyVal
  | .none => .none
  | .bool b => .bool b
  | .int n => .int n
  | .str s => .str s
  | .bytes bs => .str (String.mk (b64encodeModel bs))
  | .datetime d => .str (isoformatModel d)
  | .list xs => .list (toTreeSkipNoneList xs)
  | .set xs => .list (toTreeSkipNoneList xs)
  | .dict kvs => .dict (toTreeSkipNoneFields kvs)
  | .enumMember true n _ => .str n
  | .enumMember false _ v => toTreeSkipNone v
  | .dataclassObj fs => .dict (toTreeSkipNoneDataFields fs)

def toTreeSkipNoneList : PyList → PyList
  | .nil => .nil
  | .cons v rest => .cons (toTreeSkipNone v) (toTreeSkipNoneList rest)

def toTreeSkipNoneFields : PyFields → PyFields
  | .nil => .nil
  | .cons n v rest => .cons n (toTreeSkipNone v) (toTreeSkipNoneFields rest)

/-- Field conversion for a dataclass level under JSONSkipNoneEncoder: the
composition of `skipNoneFactory` with the per-field conversion, written as one
recursion for termination. -/
def toTreeSkipNoneDataFields : PyFields → PyFields
  | .nil => .nil
  | .cons n v rest =>
    if v = .none then toTreeSkipNoneDataFields rest
    else .cons n (toTreeSkipNone v) (toTreeSkipNoneDataFields rest)
end

/-- Escapes one character inside a JSON string literal as json.dumps does for
the quote, the backslash and control characters. -/
def pyJsonEscapeChar (c : Char) : String :=
  if c = '"' then "\\\""
  else if c = '\\' then "\\\\"
  else if c.toNat < 32 then
    "\\u00" ++ String.mk [hexChar (c.toNat / 16), hexChar (c.toNat % 16)]
  else String.mk [c]

/-- Renders a string as a JSON string literal. -/
def pyJsonQuote (s : String) : String :=
  "\"" ++ String.join (s.toList.map pyJsonEscapeChar) ++ "\""

mutual
/-- Model of json.dumps with the DEFAULT encoder and default separators, as
called on a dataclass request in RPCSocketClientBase._rpc (sockets.py line 120)
and on a dataclass response in RPCSocketServerBase._listen (sockets.py line
170): JSON-native values are rendered, and any other object (bytes, set,
datetime, enumeration member, dataclass instance) reaches
json.JSONEncoder.default, which raises TypeError. -/
def jsonDumpsDefault : PyVal → Except PyError String
  | .none => .ok "null"
  | .bool true => .ok "true"
  | .bool false => .ok "false"
  | .int n => .ok (toString n)
  | .str s => .ok (pyJsonQuote s)
  | .list xs =>
    match jsonDumpsDefaultList xs with
    | .ok parts => .ok ("[" ++ String.intercalate ", " parts ++ "]")
    | .error e => .error e
  | .dict kvs =>
    match jsonDumpsDefaultFields kvs with
    | .ok parts => .ok ("\x7b" ++ String.intercalate ", " parts ++ "\x7d")
    | .error e => .error e
  | _ => .error (.typeError "Object is not JSON serializable")

def jsonDumpsDefaultList : PyList → Except PyError (List String)
  | .nil => .ok []
  | .cons v rest =>
    match jsonDumpsDefault v, jsonDumpsDefaultList rest with
    | .ok s, .ok parts => .ok (s :: parts)
    | .error e, _ => .error e
    | _, .error e => .error e

def jsonDumpsDefaultFields : PyFields → Except PyError (List String)
  | .nil => .ok []
  | .cons n v rest =>
    match jsonDumpsDefault v, jsonDumpsDefaultFields rest with
    | .ok s, .ok parts => .ok ((pyJsonQuote n ++ ": " ++ s) :: parts)
    | .error e, _ => .error e
    | _, .error e => .error e
end

/-- Filters the excluded key set out of a dict value, as the comprehensions in
to_dict (models.py line 157) and to_json (models.py lines 179-183) do. -/
def filterExcluded (excluded : List String) : PyFields → PyFields
  | .nil => .nil
  | .cons n v rest =>
    if excluded.contains n then filterExcluded excluded rest
    else .cons n v (filterExcluded excluded rest)

/-- Applies the exclusion filter to the top-level dict of a converted record. -/
def filterTop (excluded : List String) : PyVal → PyVal
  | .dict kvs => .dict (filterExcluded excluded kvs)
  | v => v

/-- Model of SerializableDataclass.to_dict (models.py lines 148-158): asdict
with the class dict factory, then the _dict_excluded_fields filter on the
top-level keys. -/
def toDictModel (factory : PyFields → PyFields) (dictExcluded : List String)
    (r : PyVal) : PyVal :=
  filterTop dictExcluded (pyAsdict factory r)

/-- Model of SerializableDataclass.to_json (models.py lines 167-184) up to the
byte rendering: the record is first converted by to_dict, the
_serialization_excluded_fields filter is applied, and the resulting plain dict
is serialised with the class JSON encoder (`enc` is `toTreeExtended` for
JSONExtendedEncoder, the default, or `toTreeSkipNone` for JSONSkipNoneEncoder).
The output is the JSON document tree whose rendering json.dumps returns. -/
def toJsonTreeModel (enc : PyVal → PyVal) (factory : PyFields → PyFields)
    (dictExcluded serExcluded : List String) (r : PyVal) : PyVal :=
  enc (filterTop serExcluded (toDictModel factory dictExcluded r))

mutual

/-- Declared field types of the repository's records, as dacite and
is_optional_type see them.  Enumeration types carry their member list (name and
value of each member, aliases merged as in Python's enum).  A record type
carries its schema: the ordered dataclass fields, each with its name, declared
type and declared default (`Option.none` when the field has no default). -/
inductive FType where
  | int
  | str
  | bool
  | bytes
  | datetime
  | set (t : FType)
  | strEnum (members : List (String × PyVal))
  | valEnum (members : List (String × PyVal))
  | record (schema : Schema)
  | opt (t : FType)
  deriving DecidableEq, Repr

inductive Schema where
  | nil
  | cons (name : String) (t : FType) (dflt : Option PyVal) (rest : Schema)
  deriving DecidableEq, Repr
end

/-- Model of models.py is_optional_type (lines 43-51): whether the annotation
is Optional (a Union including None). -/
def FType.isOptional : FType → Bool
  | .opt _ => true
  | _ => false

/-- Field names of a schema, in declaration order. -/
def schemaNames : Schema → List String
  | .nil => []
  | .cons n _ _ rest => n :: schemaNames rest

/-- Whether an enumeration member value is an int or a string (the only member
value shapes the wire codec round-trips; json.dumps followed by json.loads is
the identity on them). -/
def isIntOrStr : PyVal → Bool
  | .int _ => true
  | .str _ => true
  | _ => false

/-- Wellformedness of an enumeration member list: Python enums cannot declare
two members with the same name, and two members with the same value are
aliases of one canonical member, so names and values are duplicate-free. -/
def enumWf (ms : List (String × PyVal)) : Bool :=
  decide ((ms.map Prod.fst).Nodup) && decide ((ms.map Prod.snd).Nodup) &&
    ms.all (fun m => isIntOrStr m.2)

mutual

/-- Wellformedness of field types and schemas: enumeration member lists are
wellformed, schema field names are duplicate-free (dataclass fields are), and a
field named _uid has declared type int as in APIMessage (models.py line 204). -/
def wfType : FType → Bool
  | .set t => wfType t
  | .strEnum ms => enumWf ms
  | .valEnum ms => enumWf ms
  | .record s => decide ((schemaNames s).Nodup) && wfSchemaFields s
  | .opt t => wfType t
  | _ => true

def wfSchemaFields : Schema → Bool
  | .nil => true
  | .cons n t _ rest =>
    (if n = "_uid" then t = FType.int else true) && wfType t && wfSchemaFields rest
end

mutual

/-- Typing of a runtime value at a declared field type.  A dataclass value's
fields must align with its schema positionally with equal names, as the fields
of a constructed dataclass instance do; set elements are duplicate-free
(the Python set invariant); byte values are below 256; datetimes satisfy the
rendering bounds; enumeration members belong to their type's member list. -/
def wellTyped : FType → PyVal → Bool
  | .int, .int _ => true
  | .str, .str _ => true
  | .bool, .bool _ => true
  | .bytes, .bytes bs => bs.all (fun b => b < 256)
  | .datetime, .datetime d => d.wf
  | .set t, .set xs => wellTypedList t xs && pyListNodup xs
  | .strEnum ms, .enumMember true n v => decide ((n, v) ∈ ms)
  | .valEnum ms, .enumMember false n v => decide ((n, v) ∈ ms)
  | .record s, .dataclassObj fs => wellTypedFields s fs
  | .opt t, v => v = PyVal.none || wellTyped t v
  | _, _ => false
termination_by t v => sizeOf t + sizeOf v

def wellTypedList : FType → PyList → Bool
  | _, .nil => true
  | t, .cons v rest => wellTyped t v && wellTypedList t rest
termination_by t xs => sizeOf t + sizeOf xs

def wellTypedFields : Schema → PyFields → Bool
  | .nil, .nil => true
  | .cons n t _ srest, .cons m v frest =>
    n = m && wellTyped t v && wellTypedFields srest frest
  | _, _ => false
termination_by s fs => sizeOf s + sizeOf fs
end

/-- Model of StrEnumMeta.__call__ with no extra arguments (models.py lines
104-120): if the argument is the name of a member, that member itself is
returned (`cls._member_map_.get(enum_name)`); otherwise the call falls through
to enum.EnumMeta.__call__, the ordinary by-value construction, which fails
(ValueError, here Option.none) when no member has the argument as value. -/
def strEnumMetaCall (members : List (String × PyVal)) (arg : PyVal) :
    Option (String × PyVal) :=
  match arg with
  | .str s =>
    match members.find? (fun m => decide (m.1 = s)) with
    | some m => some m
    | Option.none => members.find? (fun m => decide (m.2 = arg))
  | _ => members.find? (fun m => decide (m.2 = arg))

/-- Ordinary enum.EnumMeta.__call__: lookup of a member by value. -/
def enumByValue (members : List (String × PyVal)) (v : PyVal) :
    Option (String × PyVal) :=
  members.find? (fun m => decide (m.2 = v))

/-- Model of APIMessage.__post_init__'s required-field loop (models.py lines
207-222): every dataclass field except _uid whose value is None and whose
declared type is not Optional raises TypeError.  The loop reads each field's
value with getattr; a constructed instance holds exactly the schema's fields in
order, so the check walks schema and field values in lockstep. -/
def postInitCheck : Schema → PyFields → Except PyError Unit
  | .cons n t _ srest, .cons _ v frest =>
    if n ≠ "_uid" && v = PyVal.none && !t.isOptional then
      .error (.typeError (n ++ " must be specified"))
    else postInitCheck srest frest
  | _, _ => .ok ()

/-- Model of the _uid auto-assignment at the end of __post_init__ (models.py
lines 223-224): if the _uid field is None it receives a fresh random integer
(`uuid4().int`); the random draw is the `fresh` parameter. -/
def assignUid (fresh : Int) : PyFields → PyFields
  | .nil => .nil
  | .cons n v rest =>
    if n = "_uid" && v = PyVal.none then .cons n (.int fresh) (assignUid fresh rest)
    else .cons n v (assignUid fresh rest)

/-- Binding of keyword arguments to dataclass fields when a record class is
called as `cls(**kwargs)` (sockets.py lines 124 and 168): each declared field
takes the keyword value if present, else its declared default, and a field with
neither raises TypeError. -/
def bindFields : Schema → PyFields → Except PyError PyFields
  | .nil, _ => .ok .nil
  | .cons n _ dflt rest, kwargs =>
    match pyFieldsLookup kwargs n, dflt with
    | some v, _ =>
      match bindFields rest kwargs with
      | .ok fs => .ok (.cons n v fs)
      | .error e => .error e
    | Option.none, some d =>
      match bindFields rest kwargs with
      | .ok fs => .ok (.cons n d fs)
      | .error e => .error e
    | Option.none, Option.none =>
      .error (.typeError ("missing required argument: " ++ n))

/-- Whether the keyword dict contains a key that is not a declared field, which
makes the dataclass constructor raise TypeError. -/
def hasUnexpectedKw (schema : Schema) : PyFields → Bool
  | .nil => false
  | .cons k _ rest =>
    !(schemaNames schema).contains k || hasUnexpectedKw schema rest

/-- Model of constructing an APIMessage record with keyword arguments,
`cls(**kwargs)`: the generated dataclass __init__ rejects unexpected keywords,
binds each field to the keyword value or the declared default, then runs
__post_init__ (required-field check and _uid auto-assignment).  No type
coercion or type checking of the bound values happens on this path. -/
def ctorKwargs (schema : Schema) (kwargs : PyFields) (fresh : Int) :
    Except PyError PyVal :=
  if hasUnexpectedKw schema kwargs then
    .error (.typeError "unexpected keyword argument")
  else
    match bindFields schema kwargs with
    | .error e => .error e
    | .ok fs =>
      match postInitCheck schema fs with
      | .error e => .error e
      | .ok _ => .ok (.dataclassObj (assignUid fresh fs))

mutual

/-- Model of dacite's type-directed construction of one field value, under
SerializableDataclass._from_dict_config (models.py lines 141-144): the bytes
type hook applies b64decode, the datetime hook applies fromisoformat, a Set
field decodes the JSON array elementwise and collapses it into a set, an
enumeration field is cast by calling the enum class (through StrEnumMeta for a
StrEnum, by value for a plain enum), a nested record recurses through
dacite.from_dict, an Optional accepts None, and plain int/str/bool values must
already have the declared type. -/
def daciteBuildValue (t : FType) (v : PyVal) (fresh : Int) : Except PyError PyVal :=
  match t, v with
  | .int, .int _ => .ok v
  | .str, .str _ => .ok v
  | .bool, .bool _ => .ok v
  | .bytes, .str s =>
    match b64decodeModel s.toList with
    | some bs => .ok (.bytes bs)
    | Option.none => .error (.valueError "invalid base64")
  | .datetime, .str s =>
    match fromisoformatModel s with
    | some d => .ok (.datetime d)
    | Option.none => .error (.valueError "invalid isoformat string")
  | .set t1, .list xs =>
    match daciteBuildList t1 xs fresh with
    | .ok ys => .ok (.set (pyListDedup ys))
    | .error e => .error e
  | .strEnum ms, w =>
    match strEnumMetaCall ms w with
    | some m => .ok (.enumMember true m.1 m.2)
    | Option.none => .error (.valueError "not a valid enum member")
  | .valEnum ms, w =>
    match enumByValue ms w with
    | some m => .ok (.enumMember false m.1 m.2)
    | Option.none => .error (.valueError "not a valid enum member")
  | .record s, .dict kvs => daciteFromDict s kvs fresh
  | .opt t1, w => if w = PyVal.none then .ok .none else daciteBuildValue t1 w fresh
  | _, _ => .error (.typeError "wrong type")
termination_by (sizeOf t, sizeOf v)

/-- Builds each declared field of a record from the decoded JSON dict: the
value under the field's key when present (converted per the declared type), the
declared default when the key is absent (dacite uses dataclass defaults), and
dacite.MissingValueError when neither exists.  Unknown extra keys are ignored,
as dacite does without strict mode. -/
def daciteBuildFields (s : Schema) (kvs : PyFields) (fresh : Int) :
    Except PyError PyFields :=
  match s with
  | .nil => .ok .nil
  | .cons n t dflt rest =>
    match pyFieldsLookup kvs n, dflt with
    | some v, _ =>
      (daciteBuildValue t v fresh).bind (fun w =>
        (daciteBuildFields rest kvs fresh).map (fun fs => .cons n w fs))
    | Option.none, some d =>
      (daciteBuildFields rest kvs fresh).map (fun fs => .cons n d fs)
    | Option.none, Option.none => .error (.missingValueError n)
termination_by (sizeOf s, sizeOf kvs)

/-- Decodes the elements of a JSON array at the declared element type. -/
def daciteBuildList (t : FType) (xs : PyList) (fresh : Int) :
    Except PyError PyList :=
  match xs with
  | .nil => .ok .nil
  | .cons v rest =>
    match daciteBuildValue t v fresh with
    | .ok w =>
      match daciteBuildList t rest fresh with
      | .ok ws => .ok (.cons w ws)
      | .error e => .error e
    | .error e => .error e
termination_by (sizeOf t, sizeOf xs)

/-- Model of SerializableDataclass.from_dict (models.py lines 160-164):
dacite.from_dict builds every declared field from the data dict and then
invokes the dataclass constructor, which runs __post_init__ — the
required-field check and the _uid auto-assignment. -/
def daciteFromDict (s : Schema) (kvs : PyFields) (fresh : Int) :
    Except PyError PyVal :=
  match daciteBuildFields s kvs fresh with
  | .ok fs =>
    match postInitCheck s fs with
    | .ok _ => .ok (.dataclassObj (assignUid fresh fs))
    | .error e => .error e
  | .error e => .error e
termination_by (sizeOf s, sizeOf kvs + 1)
end

/-- Model of SerializableDataclass.from_json (models.py lines 186-189) on the
JSON document tree: json.loads parses the byte rendering back to the tree
(stdlib inverse, elided) and from_dict reconstructs the record; a tree that is
not a JSON object cannot be splatted into dacite.from_dict. -/
def fromJsonTreeModel (s : Schema) (tree : PyVal) (fresh : Int) :
    Except PyError PyVal :=
  match tree with
  | .dict kvs => daciteFromDict s kvs fresh
  | _ => .error (.typeError "from_dict expects a mapping")

theorem string_toList_mk (cs : List Char) : (String.mk cs).toList = cs := rfl

theorem pyListRemoveAll_of_not_contains (v : PyVal) (xs : PyList)
    (h : pyListContains xs v = false) : pyListRemoveAll v xs = xs := by
  match xs with
  | .nil => rfl
  | .cons w rest =>
    simp only [pyListContains, Bool.or_eq_false_iff, decide_eq_false_iff_not] at h
    simp only [pyListRemoveAll, if_neg h.1]
    rw [pyListRemoveAll_of_not_contains v rest h.2]

theorem pyListDedup_of_nodup (xs : PyList) (h : pyListNodup xs = true) :
    pyListDedup xs = xs := by
  match xs with
  | .nil => rfl
  | .cons v rest =>
    simp only [pyListNodup, Bool.and_eq_true, Bool.not_eq_true'] at h
    simp only [pyListDedup]
    rw [pyListDedup_of_nodup rest h.2, pyListRemoveAll_of_not_contains v rest h.1]

theorem find?_fst_of_mem {ms : List (String × PyVal)} {n : String} {v : PyVal}
    (hnodup : (ms.map Prod.fst).Nodup) (hmem : (n, v) ∈ ms) :
    ms.find? (fun m => decide (m.1 = n)) = some (n, v) := by
  induction ms with
  | nil => simp at hmem
  | cons m rest ih =>
    simp only [List.map_cons, List.nodup_cons] at hnodup
    rcases List.mem_cons.mp hmem with h | h
    · subst h
      simp [List.find?]
    · have hne : m.1 ≠ n := by
        intro he
        exact hnodup.1 (he ▸ (List.mem_map.mpr ⟨(n, v), h, rfl⟩))
      have hd : decide (m.1 = n) = false := by simpa using hne
      simp only [List.find?, hd]
      exact ih hnodup.2 h

theorem find?_snd_of_mem {ms : List (String × PyVal)} {n : String} {v : PyVal}
    (hnodup : (ms.map Prod.snd).Nodup) (hmem : (n, v) ∈ ms) :
    ms.find? (fun m => decide (m.2 = v)) = some (n, v) := by
  induction ms with
  | nil => simp at hmem
  | cons m rest ih =>
    simp only [List.map_cons, List.nodup_cons] at hnodup
    rcases List.mem_cons.mp hmem with h | h
    · subst h
      simp [List.find?]
    · have hne : m.2 ≠ v := by
        intro he
        exact hnodup.1 (he ▸ (List.mem_map.mpr ⟨(n, v), h, rfl⟩))
      have hd : decide (m.2 = v) = false := by simpa using hne
      simp only [List.find?, hd]
      exact ih hnodup.2 h

theorem toTreeExtended_of_isIntOrStr {v : PyVal} (h : isIntOrStr v = true) :
    toTreeExtended v = v := by
  cases v <;> simp_all [isIntOrStr, toTreeExtended]

theorem wellTyped_none_isOptional {t : FType} (h : wellTyped t PyVal.none = true) :
    t.isOptional = true := by
  cases t <;> simp_all [wellTyped, FType.isOptional]

theorem toTreeExtended_ne_none (t : FType) (v : PyVal) (hwf : wfType t = true)
    (hwt : wellTyped t v = true) (hne : v ≠ PyVal.none) :
    toTreeExtended v ≠ PyVal.none := by
  match t, v with
  | _, .bool b => simp [toTreeExtended]
  | _, .int n => simp [toTreeExtended]
  | _, .str s => simp [toTreeExtended]
  | _, .bytes bs => simp [toTreeExtended]
  | _, .datetime d => simp [toTreeExtended]
  | _, .list xs => simp [toTreeExtended]
  | _, .set xs => simp [toTreeExtended]
  | _, .dict kvs => simp [toTreeExtended]
  | _, .dataclassObj fs => simp [toTreeExtended]
  | _, .none => exact absurd rfl hne
  | t, .enumMember true n w => simp [toTreeExtended]
  | t, .enumMember false n w =>
    simp only [toTreeExtended]
    match t with
    | .valEnum ms =>
      simp only [wellTyped, decide_eq_true_eq] at hwt
      simp only [wfType, enumWf, Bool.and_eq_true, List.all_eq_true] at hwf
      have hint : isIntOrStr w = true := hwf.2 (n, w) hwt
      rw [toTreeExtended_of_isIntOrStr hint]
      cases w <;> simp_all [isIntOrStr]
    | .opt t1 =>
      simp only [wellTyped] at hwt
      simp only [wfType] at hwf
      have := toTreeExtended_ne_none t1 (.enumMember false n w) hwf hwt (by simp)
      simpa [toTreeExtended] using this
    | .int => simp [wellTyped] at hwt
    | .str => simp [wellTyped] at hwt
    | .bool => simp [wellTyped] at hwt
    | .bytes => simp [wellTyped] at hwt
    | .datetime => simp [wellTyped] at hwt
    | .set t1 => simp [wellTyped] at hwt
    | .strEnum ms => simp [wellTyped] at hwt
    | .record s => simp [wellTyped] at hwt

theorem pyFieldsLookup_toTreeExtendedFields (fs : PyFields) (k : String) :
    pyFieldsLookup (toTreeExtendedFields fs) k =
      (pyFieldsLookup fs k).map toTreeExtended := by
  match fs with
  | .nil => rfl
  | .cons n v rest =>
    simp only [toTreeExtendedFields, pyFieldsLookup]
    by_cases h : n = k
    · simp [h]
    · simp [h, pyFieldsLookup_toTreeExtendedFields rest k]

theorem schemaNames_eq_of_wellTypedFields {s : Schema} {fs : PyFields}
    (h : wellTypedFields s fs = true) : schemaNames s = pyFieldsNames fs := by
  match s, fs with
  | .nil, .nil => rfl
  | .nil, .cons _ _ _ => simp [wellTypedFields] at h
  | .cons _ _ _ _, .nil => simp [wellTypedFields] at h
  | .cons n t d srest, .cons m v frest =>
    simp only [wellTypedFields, Bool.and_eq_true, decide_eq_true_eq] at h
    simp only [schemaNames, pyFieldsNames, h.1.1]
    exact congrArg _ (schemaNames_eq_of_wellTypedFields h.2)

theorem postInitCheck_ok_of_wellTyped {s : Schema} {fs : PyFields}
    (h : wellTypedFields s fs = true) : postInitCheck s fs = .ok () := by
  match s, fs with
  | .nil, .nil => rfl
  | .nil, .cons _ _ _ => simp [wellTypedFields] at h
  | .cons _ _ _ _, .nil => simp [wellTypedFields] at h
  | .cons n t d srest, .cons m v frest =>
    simp only [wellTypedFields, Bool.and_eq_true, decide_eq_true_eq] at h
    have hcond : (n ≠ "_uid" && v = PyVal.none && !t.isOptional) = false := by
      by_cases hv : v = PyVal.none
      · have := wellTyped_none_isOptional (hv ▸ h.1.2)
        simp [this]
      · simp [hv]
    simp only [postInitCheck, hcond, if_false, Bool.false_eq_true]
    exact postInitCheck_ok_of_wellTyped h.2

theorem assignUid_eq_self {s : Schema} {fs : PyFields} (fresh : Int)
    (hwt : wellTypedFields s fs = true) (hwf : wfSchemaFields s = true) :
    assignUid fresh fs = fs := by
  match s, fs with
  | .nil, .nil => rfl
  | .nil, .cons _ _ _ => simp [wellTypedFields] at hwt
  | .cons _ _ _ _, .nil => simp [wellTypedFields] at hwt
  | .cons n t d srest, .cons m v frest =>
    simp only [wellTypedFields, Bool.and_eq_true, decide_eq_true_eq] at hwt
    simp only [wfSchemaFields, Bool.and_eq_true] at hwf
    have hcond : (m = "_uid" && v = PyVal.none) = false := by
      by_cases hm : m = "_uid"
      · have hn : n = "_uid" := hwt.1.1.trans hm
        have h0 := hwf.1.1
        rw [if_pos hn] at h0
        have ht : t = FType.int := of_decide_eq_true h0
        have hv : wellTyped FType.int v = true := ht ▸ hwt.1.2
        have hne : v ≠ PyVal.none := by
          intro he
          rw [he] at hv
          simp [wellTyped] at hv
        simp [hne]
      · simp [hm]
    simp only [assignUid, hcond, Bool.false_eq_true, if_false]
    exact congrArg _ (assignUid_eq_self fresh hwt.2 hwf.2)

mutual

theorem pyAsdict_id_toTreeExtended (v : PyVal) :
    toTreeExtended (pyAsdict (fun kvs => kvs) v) = toTreeExtended v := by
  match v with
  | .none => rfl
  | .bool b => rfl
  | .int n => rfl
  | .str s => rfl
  | .bytes bs => rfl
  | .datetime d => rfl
  | .set xs => rfl
  | .enumMember b n w => rfl
  | .list xs =>
    simp only [pyAsdict, toTreeExtended]
    exact congrArg _ (pyAsdictList_id_toTreeExtended xs)
  | .dict kvs =>
    simp only [pyAsdict, toTreeExtended]
    exact congrArg _ (pyAsdictFields_id_toTreeExtended kvs)
  | .dataclassObj fs =>
    simp only [pyAsdict, toTreeExtended]
    exact congrArg _ (pyAsdictFields_id_toTreeExtended fs)

theorem pyAsdictList_id_toTreeExtended (xs : PyList) :
    toTreeExtendedList (pyAsdictList (fun kvs => kvs) xs) = toTreeExtendedList xs := by
  match xs with
  | .nil => rfl
  | .cons v rest =>
    simp only [pyAsdictList, toTreeExtendedList]
    rw [pyAsdict_id_toTreeExtended v, pyAsdictList_id_toTreeExtended rest]

theorem pyAsdictFields_id_toTreeExtended (kvs : PyFields) :
    toTreeExtendedFields (pyAsdictFields (fun x => x) kvs) = toTreeExtendedFields kvs := by
  match kvs with
  | .nil => rfl
  | .cons n v rest =>
    simp only [pyAsdictFields, toTreeExtendedFields]
    rw [pyAsdict_id_toTreeExtended v, pyAsdictFields_id_toTreeExtended rest]
end

theorem filterExcluded_nil (kvs : PyFields) : filterExcluded [] kvs = kvs := by
  match kvs with
  | .nil => rfl
  | .cons n v rest => simp [filterExcluded, filterExcluded_nil rest]

mutual

theorem daciteRoundtripValue (t : FType) (v : PyVal) (fresh : Int)
    (hwf : wfType t = true) (hwt : wellTyped t v = true) :
    daciteBuildValue t (toTreeExtended v) fresh = .ok v := by
  match t with
  | .int =>
    cases v <;> simp only [wellTyped, Bool.false_eq_true] at hwt
    simp [toTreeExtended, daciteBuildValue]
  | .str =>
    cases v <;> simp only [wellTyped, Bool.false_eq_true] at hwt
    simp [toTreeExtended, daciteBuildValue]
  | .bool =>
    cases v <;> simp only [wellTyped, Bool.false_eq_true] at hwt
    simp [toTreeExtended, daciteBuildValue]
  | .bytes =>
    cases v <;> simp only [wellTyped, Bool.false_eq_true] at hwt
    case bytes bs =>
      simp only [List.all_eq_true, decide_eq_true_eq] at hwt
      simp [toTreeExtended, daciteBuildValue, string_toList_mk,
        b64decodeModel_b64encodeModel bs hwt]
  | .datetime =>
    cases v <;> simp only [wellTyped, Bool.false_eq_true] at hwt
    case datetime d =>
      simp [toTreeExtended, daciteBuildValue, fromisoformatModel_isoformatModel d hwt]
  | .set t1 =>
    cases v <;> simp only [wellTyped, Bool.false_eq_true] at hwt
    case set xs =>
      simp only [Bool.and_eq_true] at hwt
      simp only [wfType] at hwf
      simp only [toTreeExtended, daciteBuildValue,
        daciteRoundtripList t1 xs fresh hwf hwt.1, pyListDedup_of_nodup xs hwt.2]
  | .strEnum ms =>
    cases v <;> try simp only [wellTyped, Bool.false_eq_true] at hwt
    case enumMember isStr n w =>
      cases isStr
      · simp only [wellTyped, Bool.false_eq_true] at hwt
      · simp only [wellTyped, decide_eq_true_eq] at hwt
        simp only [wfType, enumWf, Bool.and_eq_true, decide_eq_true_eq] at hwf
        simp [toTreeExtended, daciteBuildValue, strEnumMetaCall,
          find?_fst_of_mem hwf.1.1 hwt]
  | .valEnum ms =>
    cases v <;> try simp only [wellTyped, Bool.false_eq_true] at hwt
    case enumMember isStr n w =>
      cases isStr
      · simp only [wellTyped, decide_eq_true_eq] at hwt
        simp only [wfType, enumWf, Bool.and_eq_true, List.all_eq_true,
          decide_eq_true_eq] at hwf
        have hint : isIntOrStr w = true := hwf.2 (n, w) hwt
        simp only [toTreeExtended, toTreeExtended_of_isIntOrStr hint]
        simp [daciteBuildValue, enumByValue, find?_snd_of_mem hwf.1.2 hwt]
      · simp only [wellTyped, Bool.false_eq_true] at hwt
  | .record sc =>
    cases v <;> simp only [wellTyped, Bool.false_eq_true] at hwt
    case dataclassObj fs =>
      simp only [wfType, Bool.and_eq_true, decide_eq_true_eq] at hwf
      simp only [toTreeExtended, daciteBuildValue, daciteFromDict,
        daciteRoundtripFields sc fs (toTreeExtendedFields fs) fresh hwf.2 hwf.1 hwt
          (fun k _ => pyFieldsLookup_toTreeExtendedFields fs k),
        postInitCheck_ok_of_wellTyped hwt, assignUid_eq_self fresh hwt hwf.2]
  | .opt t1 =>
    simp only [wellTyped, Bool.or_eq_true, decide_eq_true_eq] at hwt
    simp only [wfType] at hwf
    by_cases hv : v = PyVal.none
    · subst hv
      simp [toTreeExtended, daciteBuildValue]
    · have hwt1 : wellTyped t1 v = true := by
        rcases hwt with h | h
        · exact absurd h hv
        · exact h
      have hne := toTreeExtended_ne_none t1 v hwf hwt1 hv
      simp only [daciteBuildValue, if_neg hne]
      exact daciteRoundtripValue t1 v fresh hwf hwt1
termination_by (sizeOf t, sizeOf v)

theorem daciteRoundtripList (t : FType) (xs : PyList) (fresh : Int)
    (hwf : wfType t = true) (hwt : wellTypedList t xs = true) :
    daciteBuildList t (toTreeExtendedList xs) fresh = .ok xs := by
  match xs with
  | .nil => simp [toTreeExtendedList, daciteBuildList]
  | .cons v rest =>
    simp only [wellTypedList, Bool.and_eq_true] at hwt
    simp only [toTreeExtendedList, daciteBuildList,
      daciteRoundtripValue t v fresh hwf hwt.1,
      daciteRoundtripList t rest fresh hwf hwt.2]
termination_by (sizeOf t, sizeOf xs)

theorem daciteRoundtripFields (s : Schema) (fs kvs : PyFields) (fresh : Int)
    (hwf : wfSchemaFields s = true) (hnodup : (schemaNames s).Nodup)
    (hwt : wellTypedFields s fs = true)
    (hlook : ∀ k, k ∈ schemaNames s →
      pyFieldsLookup kvs k = (pyFieldsLookup fs k).map toTreeExtended) :
    daciteBuildFields s kvs fresh = .ok fs := by
  match s, fs with
  | .nil, .nil => simp [daciteBuildFields]
  | .nil, .cons _ _ _ => simp [wellTypedFields] at hwt
  | .cons _ _ _ _, .nil => simp [wellTypedFields] at hwt
  | .cons n t d srest, .cons m v frest =>
    simp only [wellTypedFields, Bool.and_eq_true, decide_eq_true_eq] at hwt
    obtain ⟨⟨hnm, hv⟩, hrest⟩ := hwt
    subst hnm
    simp only [wfSchemaFields, Bool.and_eq_true] at hwf
    simp only [schemaNames, List.nodup_cons] at hnodup
    have hheadlook : pyFieldsLookup kvs n = some (toTreeExtended v) := by
      have := hlook n (by simp [schemaNames])
      simpa [pyFieldsLookup] using this
    have htaillook : ∀ k, k ∈ schemaNames srest →
        pyFieldsLookup kvs k = (pyFieldsLookup frest k).map toTreeExtended := by
      intro k hk
      have hkn : k ≠ n := fun he => hnodup.1 (he ▸ hk)
      have := hlook k (by simp [schemaNames, hk])
      simpa [pyFieldsLookup, Ne.symm hkn] using this
    rw [daciteBuildFields.eq_def]
    simp only [hheadlook,
      daciteRoundtripValue t v fresh hwf.1.2 hv,
      daciteRoundtripFields srest frest kvs fresh hwf.2 hnodup.2 hrest htaillook,
      Except.bind, Except.map]
termination_by (sizeOf s, sizeOf fs)
end

/-- C1: For every valid record value r of a concrete APIMessage subtype —
fields may hold nested records, sets, binary blobs, timestamps, StrEnum members
and ordinary value-enumeration members, and every value is well typed at its
declared field type with a wellformed schema — decoding the encoding of r back
into r's type yields a record field-for-field equal to r, i.e.
from_json(to_json(r)) == r.  to_json is modelled up to the JSON document tree
(`toJsonTreeModel` with the extended encoder, the default dict factory, and the
default empty exclusion sets) and from_json consumes that tree
(`fromJsonTreeModel`); the byte rendering between them, json.dumps followed by
json.loads, is the standard library's exact inverse pair on JSON documents and
is elided. -/
theorem C1_roundtrip (s : Schema) (fs : PyFields) (fresh : Int)
    (hwf : wfType (.record s) = true)
    (hwt : wellTyped (.record s) (.dataclassObj fs) = true) :
    fromJsonTreeModel s
      (toJsonTreeModel toTreeExtended (fun kvs => kvs) [] [] (.dataclassObj fs))
      fresh = .ok (.dataclassObj fs) := by
  have htree : toJsonTreeModel toTreeExtended (fun kvs => kvs) [] []
      (.dataclassObj fs) = .dict (toTreeExtendedFields fs) := by
    simp only [toJsonTreeModel, toDictModel, pyAsdict, filterTop, filterExcluded_nil,
      toTreeExtended, pyAsdictFields_id_toTreeExtended]
  rw [htree]
  have h := daciteRoundtripValue (.record s) (.dataclassObj fs) fresh hwf hwt
  simp only [toTreeExtended, daciteBuildValue] at h
  simpa [fromJsonTreeModel] using h

/-- Concrete StrEnum member list for the round-trip witness. -/
def witColors : List (String × PyVal) := [("red", .int 1), ("green", .int 2)]

/-- Concrete plain-enum member list for the round-trip witness. -/
def witSizes : List (String × PyVal) := [("small", .int 10), ("big", .str "b")]

/-- Nested record schema for the round-trip witness. -/
def witInnerSchema : Schema :=
  .cons "_uid" .int (some .none)
    (.cons "_type" .str (some (.str "request"))
      (.cons "note" (.opt .str) (some .none) .nil))

/-- Nested record value for the round-trip witness. -/
def witInner : PyFields :=
  .cons "_uid" (.int 7)
    (.cons "_type" (.str "request")
      (.cons "note" (.str "hi") .nil))

/-- Request schema for the round-trip witness: framing fields, a command, a
binary blob, a timestamp, a set, both enumeration kinds, a nested record and an
absent optional field. -/
def witSchema : Schema :=
  .cons "_uid" .int (some .none)
    (.cons "_type" .str (some (.str "request"))
      (.cons "command" .str (some .none)
        (.cons "blob" .bytes (some .none)
          (.cons "when" .datetime (some .none)
            (.cons "tags" (.set .int) (some .none)
              (.cons "color" (.strEnum witColors) (some .none)
                (.cons "size" (.valEnum witSizes) (some .none)
                  (.cons "inner" (.record witInnerSchema) (some .none)
                    (.cons "extra" (.opt .str) (some .none) .nil)))))))))

/-- Record value for the round-trip witness. -/
def witRecord : PyFields :=
  .cons "_uid" (.int 41)
    (.cons "_type" (.str "request")
      (.cons "command" (.str "ping-test")
        (.cons "blob" (.bytes [0, 255, 16])
          (.cons "when" (.datetime ⟨2024, 5, 17, 12, 30, 45, 123456⟩)
            (.cons "tags" (.set (.cons (.int 3) (.cons (.int 5) .nil)))
              (.cons "color" (.enumMember true "green" (.int 2))
                (.cons "size" (.enumMember false "big" (.str "b"))
                  (.cons "inner" (.dataclassObj witInner)
                    (.cons "extra" .none .nil)))))))))

/-- Witness for C1: the hypotheses hold and the conclusion follows at a concrete
record exercising every extended type. -/
theorem C1_roundtrip_witness :
    wfType (.record witSchema) = true ∧
      wellTyped (.record witSchema) (.dataclassObj witRecord) = true ∧
      fromJsonTreeModel witSchema
        (toJsonTreeModel toTreeExtended (fun kvs => kvs) [] []
          (.dataclassObj witRecord)) 99 = .ok (.dataclassObj witRecord) := by
  have hwf : wfType (.record witSchema) = true := by
    simp [witSchema, witInnerSchema, witColors, witSizes, wfType, wfSchemaFields,
      enumWf, schemaNames, isIntOrStr]
  have hwt : wellTyped (.record witSchema) (.dataclassObj witRecord) = true := by
    simp [witSchema, witInnerSchema, witColors, witSizes, witRecord, witInner,
      wellTyped, wellTypedFields, wellTypedList, pyListNodup, pyListContains,
      PyDateTime.wf, isIntOrStr]
  exact ⟨hwf, hwt, C1_roundtrip witSchema witRecord 99 hwf hwt⟩

/-- Whether some dataclass field other than _uid is None while its declared
type is not Optional — the condition under which the __post_init__ loop raises. -/
def someRequiredNone : Schema → PyFields → Bool
  | .cons n t _ srest, .cons _ v frest =>
    (n ≠ "_uid" && v = PyVal.none && !t.isOptional) || someRequiredNone srest frest
  | _, _ => false

theorem postInitCheck_error_of_someRequiredNone {s : Schema} {fs : PyFields}
    (h : someRequiredNone s fs = true) :
    ∃ m, postInitCheck s fs = .error (.typeError m) := by
  match s, fs with
  | .nil, _ => simp [someRequiredNone] at h
  | .cons _ _ _ _, .nil => simp [someRequiredNone] at h
  | .cons n t d srest, .cons m v frest =>
    simp only [someRequiredNone, Bool.or_eq_true] at h
    by_cases hc : (n ≠ "_uid" && v = PyVal.none && !t.isOptional) = true
    · refine ⟨n ++ " must be specified", ?_⟩
      simp only [postInitCheck]
      rw [hc]
      simp
    · have htail : someRequiredNone srest frest = true := by
        rcases h with h | h
        · exact absurd h hc
        · exact h
      obtain ⟨msg, hmsg⟩ := postInitCheck_error_of_someRequiredNone htail
      refine ⟨msg, ?_⟩
      have hcf : (n ≠ "_uid" && v = PyVal.none && !t.isOptional) = false := by
        simpa using hc
      simp only [postInitCheck]
      rw [hcf]
      simpa using hmsg

theorem postInitCheck_ok_of_not_someRequiredNone {s : Schema} {fs : PyFields}
    (h : someRequiredNone s fs = false) : postInitCheck s fs = .ok () := by
  match s, fs with
  | .nil, _ => simp [postInitCheck]
  | .cons _ _ _ _, .nil => simp [postInitCheck]
  | .cons n t d srest, .cons m v frest =>
    simp only [someRequiredNone, Bool.or_eq_false_iff] at h
    simp only [postInitCheck]
    rw [h.1]
    simpa using postInitCheck_ok_of_not_someRequiredNone h.2

/-- C2: constructing an APIMessage instance leaves a field "absent" when its
bound value is None (the declared defaults are None for ordinary fields, so an
omitted keyword leaves the field None).  If any field other than the _uid
correlation field is absent while its declared type is not Optional, the
construction raises the required-field validation error — builtin TypeError,
which the specification's taxonomy names ValidationError; if every such field
is present (absent values only in Optional-typed fields, or in _uid, which is
auto-assigned), construction succeeds. -/
theorem C2_required_field_enforcement (s : Schema) (kwargs : PyFields)
    (fresh : Int) (fs : PyFields)
    (hkw : hasUnexpectedKw s kwargs = false)
    (hbind : bindFields s kwargs = .ok fs) :
    (someRequiredNone s fs = true →
      ∃ m, ctorKwargs s kwargs fresh = .error (.typeError m)) ∧
    (someRequiredNone s fs = false →
      ctorKwargs s kwargs fresh = .ok (.dataclassObj (assignUid fresh fs))) := by
  constructor
  · intro h
    obtain ⟨msg, hmsg⟩ := postInitCheck_error_of_someRequiredNone h
    exact ⟨msg, by simp [ctorKwargs, hkw, hbind, hmsg]⟩
  · intro h
    simp [ctorKwargs, hkw, hbind, postInitCheck_ok_of_not_someRequiredNone h]

/-- Error-response schema (APIErrorResponse, models.py lines 258-266): _uid,
_type and _status with class defaults, a required error_name, an Optional
error_msg. -/
def witErrSchema : Schema :=
  .cons "_uid" .int (some .none)
    (.cons "_type" .str (some (.str "response"))
      (.cons "_status" .str (some (.str "error"))
        (.cons "error_name" .str (some .none)
          (.cons "error_msg" (.opt .str) (some .none) .nil))))

/-- Witness for C2: constructing APIErrorResponse with no arguments leaves the
required error_name absent and raises TypeError; constructing it with
error_name supplied succeeds even though the Optional error_msg and _uid stay
absent. -/
theorem C2_required_field_enforcement_witness :
    (∃ m, ctorKwargs witErrSchema .nil 5 = .error (.typeError m)) ∧
      ctorKwargs witErrSchema (.cons "error_name" (.str "bad_request") .nil) 5 =
        .ok (.dataclassObj
          (.cons "_uid" (.int 5)
            (.cons "_type" (.str "response")
              (.cons "_status" (.str "error")
                (.cons "error_name" (.str "bad_request")
                  (.cons "error_msg" .none .nil)))))) := by
  constructor
  · exact (C2_required_field_enforcement witErrSchema .nil 5
      (.cons "_uid" .none
        (.cons "_type" (.str "response")
          (.cons "_status" (.str "error")
            (.cons "error_name" .none
              (.cons "error_msg" .none .nil)))))
      (by decide) (by rfl)).1 (by decide)
  · have h := (C2_required_field_enforcement witErrSchema
      (.cons "error_name" (.str "bad_request") .nil) 5
      (.cons "_uid" .none
        (.cons "_type" (.str "response")
          (.cons "_status" (.str "error")
            (.cons "error_name" (.str "bad_request")
              (.cons "error_msg" .none .nil)))))
      (by decide) (by rfl)).2 (by decide)
    simpa using h

/-- C9: for every StrEnum type and member, calling the type with the member's
name and no further arguments returns that member itself (the instance held in
the class member map, the same one attribute access returns); a string that is
not a member name falls through to ordinary enum construction, which looks the
argument up by value and yields no member (ValueError) when no member has that
value.  Member names are duplicate-free, as Python enforces for enum classes. -/
theorem C9_strEnum_name_call (ms : List (String × PyVal)) (n : String)
    (v : PyVal) (s : String)
    (hnodup : (ms.map Prod.fst).Nodup) (hmem : (n, v) ∈ ms)
    (hs : s ∉ ms.map Prod.fst) :
    strEnumMetaCall ms (.str n) = some (n, v) ∧
      strEnumMetaCall ms (.str s) = enumByValue ms (.str s) ∧
      ((∀ m ∈ ms, m.2 ≠ PyVal.str s) → strEnumMetaCall ms (.str s) = Option.none) := by
  have hfind : ms.find? (fun m => decide (m.1 = s)) = Option.none := by
    rw [List.find?_eq_none]
    intro m hm
    simp only [decide_eq_true_eq]
    intro he
    exact hs (he ▸ List.mem_map.mpr ⟨m, hm, rfl⟩)
  refine ⟨?_, ?_, ?_⟩
  · simp [strEnumMetaCall, find?_fst_of_mem hnodup hmem]
  · simp [strEnumMetaCall, hfind, enumByValue]
  · intro hval
    have : ms.find? (fun m => decide (m.2 = PyVal.str s)) = Option.none := by
      rw [List.find?_eq_none]
      intro m hm
      simpa using hval m hm
    simp [strEnumMetaCall, hfind, this]

/-- Witness for C9 on a concrete StrEnum: Color("red") is the red member;
"blue" is no member name, so the call falls back to by-value construction and
fails because no member has the value "blue". -/
theorem C9_strEnum_name_call_witness :
    strEnumMetaCall witColors (.str "red") = some ("red", .int 1) ∧
      strEnumMetaCall witColors (.str "blue") = enumByValue witColors (.str "blue") ∧
      strEnumMetaCall witColors (.str "blue") = Option.none := by
  have h := C9_strEnum_name_call witColors "red" (.int 1) "blue"
    (by decide) (by decide) (by decide)
  exact ⟨h.1, h.2.1, h.2.2 (by decide)⟩

/-- Bytes the client writes on the stream for one request: sockets.py line 90,
`sock.send(req_data_raw + self._eof)` — the payload followed by the single
terminator byte. -/
def clientSendWire (reqRaw : String) : String := reqRaw ++ eofByte

/-- Model of RPCSocketClientBase._send_and_receive (sockets.py lines 78-94).
One connection is a function `net` from the bytes written to the raw bytes
accumulated by _recv_data before the terminator or the peer's close, or to the
message of a socket-level OSError raised while connecting, sending or
receiving; the code wraps any such OSError into RPCError.  With skip_receive
the reply is not read and the empty byte string is returned. -/
def sendAndReceive (net : String → Except String String) (reqRaw : String)
    (skipReceive : Bool) : Except PyError String :=
  match net (clientSendWire reqRaw) with
  | .error oserr => .error (.rpcError ("Socket error: " ++ oserr))
  | .ok raw => .ok (if skipReceive then "" else stripData raw)

/-- Model of RPCSocketClientBase._ping (sockets.py lines 96-108): sends the
reserved ping payload inside a try block; a reply different from the reserved
pong payload raises RPCError inside the block; any RPCError — from the send,
the receive, or the mismatch — is caught and turned into False, and an
undisturbed run returns True. -/
def pingModel (net : String → Except String String) : Except PyError Bool :=
  match sendAndReceive net pingReq false with
  | .ok resp => if resp ≠ pingResp then .ok false else .ok true
  | .error (.rpcError _) => .ok false
  | .error e => .error e

/-- Model of RPCSocketClientBase._rpc (sockets.py lines 110-128): the request
object is serialised by plain json.dumps (line 120, no encoder class — a
TypeError from an unserialisable object propagates), sent over one connection,
and the reply is parsed by json.loads and splatted into the bound response
class constructor (line 124); only json.JSONDecodeError is caught and wrapped
into RPCError, every other exception of the reply processing propagates.
json.loads on the received reply is the explicit parameter `jsonLoads`. -/
def rpcModel (jsonLoads : String → Except PyError PyVal) (respSchema : Schema)
    (fresh : Int) (reqData : PyVal) (net : String → Except String String) :
    Except PyError PyVal :=
  match jsonDumpsDefault reqData with
  | .error e => .error e
  | .ok reqRaw =>
    match sendAndReceive net reqRaw false with
    | .error e => .error e
    | .ok respRaw =>
      match jsonLoads respRaw with
      | .error (.jsonDecodeError m) =>
        .error (.rpcError ("Failed decoding json response: " ++ m))
      | .error e => .error e
      | .ok j =>
        match j with
        | .dict kvs => ctorKwargs respSchema kvs fresh
        | _ => .error (.typeError "argument after ** must be a mapping")

/-- Model of one accepted connection inside RPCSocketServerBase._listen
(sockets.py lines 162-171): the framed message is received and stripped; the
reserved ping payload is answered with the pong payload plus terminator and the
handler is bypassed; any other message is parsed by json.loads (`jsonLoads`,
line 168 — no try block, an exception propagates out of the accept loop),
splatted into the bound request class constructor, dispatched to rpc_callback,
and the response is serialised with plain json.dumps and sent WITHOUT a
terminator (line 171).  The returned list holds the messages written on the
connection. -/
def serverConn (jsonLoads : String → Except PyError PyVal) (reqSchema : Schema)
    (callback : PyVal → PyVal) (fresh : Int) (raw : String) :
    Except PyError (List String) :=
  let reqRaw := stripData raw
  if reqRaw = pingReq then .ok [pingResp ++ eofByte]
  else
    match jsonLoads reqRaw with
    | .error e => .error e
    | .ok j =>
      match j with
      | .dict kvs =>
        match ctorKwargs reqSchema kvs fresh with
        | .error e => .error e
        | .ok req =>
          match jsonDumpsDefault (callback req) with
          | .error e => .error e
          | .ok respRaw => .ok [respRaw]
      | _ => .error (.typeError "argument after ** must be a mapping")

/-- Model of the accept loop of RPCSocketServerBase._listen (sockets.py lines
156-171) over the sequence of raw messages delivered by successive
connections: the only exception handler in the loop catches socket.timeout
from accept (lines 157-161), so any exception raised while handling a
connection propagates and terminates _listen; the connections after it are
never served.  Returns the messages sent on all completed connections and the
escaping exception, if any. -/
def serverLoop (jsonLoads : String → Except PyError PyVal) (reqSchema : Schema)
    (callback : PyVal → PyVal) (fresh : Int) :
    List String → List String × Option PyError
  | [] => ([], Option.none)
  | raw :: rest =>
    match serverConn jsonLoads reqSchema callback fresh raw with
    | .error e => ([], some e)
    | .ok sent =>
      match serverLoop jsonLoads reqSchema callback fresh rest with
      | (more, err) => (sent ++ more, err)

theorem sendAndReceive_error_is_rpcError (net : String → Except String String)
    (reqRaw : String) (skipReceive : Bool) (e : PyError)
    (h : sendAndReceive net reqRaw skipReceive = .error e) :
    ∃ m, e = .rpcError m := by
  unfold sendAndReceive at h
  match hn : net (clientSendWire reqRaw) with
  | .error oserr =>
    rw [hn] at h
    exact ⟨"Socket error: " ++ oserr, by injection h with h0; exact h0.symm⟩
  | .ok raw =>
    rw [hn] at h
    simp at h

/-- C7: the client probe _ping always returns a boolean and never raises — the
only exceptions its body can produce are RPCError values (socket failures are
wrapped by _send_and_receive, and the mismatch branch raises RPCError), all of
which the surrounding except block turns into False.  It returns True exactly
when the exchange succeeds and the stripped reply equals the reserved pong
payload, equivalently when some raw reply whose stripped form is the pong
payload comes back over the connection carrying the ping payload plus
terminator. -/
theorem C7_ping_total_boolean (net : String → Except String String) :
    (∃ b, pingModel net = .ok b) ∧
      (pingModel net = .ok true ↔
        sendAndReceive net pingReq false = .ok pingResp) ∧
      (pingModel net = .ok true ↔
        ∃ raw, net (clientSendWire pingReq) = .ok raw ∧ stripData raw = pingResp) := by
  have hchar : ∀ r : Except PyError String, sendAndReceive net pingReq false = r →
      (∃ b, pingModel net = .ok b) ∧
        (pingModel net = .ok true ↔ sendAndReceive net pingReq false = .ok pingResp) := by
    intro r hr
    match r with
    | .ok resp =>
      by_cases hresp : resp = pingResp
      · subst hresp
        constructor
        · exact ⟨true, by simp [pingModel, hr]⟩
        · simp [pingModel, hr]
      · constructor
        · exact ⟨false, by simp [pingModel, hr, hresp]⟩
        · simp [pingModel, hr, hresp]
    | .error e =>
      obtain ⟨m, hm⟩ := sendAndReceive_error_is_rpcError net pingReq false e hr
      subst hm
      constructor
      · exact ⟨false, by simp [pingModel, hr]⟩
      · simp [pingModel, hr]
  obtain ⟨hb, hiff⟩ := hchar (sendAndReceive net pingReq false) rfl
  refine ⟨hb, hiff, hiff.trans ?_⟩
  unfold sendAndReceive
  match hn : net (clientSendWire pingReq) with
  | .error oserr => simp
  | .ok raw =>
    constructor
    · intro h
      exact ⟨raw, rfl, by simpa using h⟩
    · rintro ⟨raw2, hraw2, hstrip⟩
      injection hraw2 with h2
      subst h2
      simp [hstrip]

/-- C5 is a code bug: for every dataclass request instance — every instance of
the bound request type, which is an APIMessage dataclass — _rpc calls plain
json.dumps on it (sockets.py line 120) and the default encoder raises
TypeError (dataclass instances are not JSON serialisable), so _rpc raises
before anything is sent, for any connection behaviour, reply parser, response
schema and uid draw; it never encodes, sends, receives, decodes or returns.
The claimed call contract can never complete. -/
theorem C5_rpc_raises_on_dataclass_request
    (jsonLoads : String → Except PyError PyVal) (respSchema : Schema)
    (fresh : Int) (fs : PyFields) (net : String → Except String String) :
    rpcModel jsonLoads respSchema fresh (.dataclassObj fs) net =
      .error (.typeError "Object is not JSON serializable") := by
  simp [rpcModel, jsonDumpsDefault]

/-- Request schema of a minimal concrete APIRequest (models.py lines 229-236):
_uid, the _type tag with its class default, and the required command field. -/
def witReqSchema : Schema :=
  .cons "_uid" .int (some .none)
    (.cons "_type" .str (some (.str "request"))
      (.cons "command" .str (some .none) .nil))

/-- Parser stub for witnesses: recognises exactly one JSON document and reports
json.JSONDecodeError for everything else. -/
def witLoads : String → Except PyError PyVal := fun s =>
  if s = "\x7b\"command\": \"go\"\x7d" then
    .ok (.dict (.cons "command" (.str "go") .nil))
  else .error (.jsonDecodeError "Expecting value")

/-- Handler stub for witnesses: answers every request with a plain dict, the
urpctools TypedDict style, which plain json.dumps can serialise. -/
def witCallback : PyVal → PyVal := fun _ => .dict (.cons "ok" (.bool true) .nil)

/-- C3 is a code bug: _listen's accept loop only catches socket.timeout around
accept (sockets.py lines 157-161); the decode of a non-ping message at line 168
runs with no handler, so when json.loads raises on a byte sequence that is not
well-formed JSON the exception propagates, _listen terminates, and every
subsequent connection — including a valid request that the claim requires to
still succeed — is never served.  The specification itself records the bare
decode call as the design gap. -/
theorem C3_malformed_request_kills_accept_loop
    (jsonLoads : String → Except PyError PyVal) (reqSchema : Schema)
    (callback : PyVal → PyVal) (fresh : Int) (mal : String)
    (rest : List String) (e : PyError)
    (hping : stripData mal ≠ pingReq)
    (hmal : jsonLoads (stripData mal) = .error e) :
    serverLoop jsonLoads reqSchema callback fresh (mal :: rest) = ([], some e) := by
  simp [serverLoop, serverConn, hping, hmal]

/-- Witness for C3: the malformed message b"oops" kills the loop with the
decode error and the well-formed request queued behind it is never answered. -/
theorem C3_malformed_request_kills_accept_loop_witness :
    serverLoop witLoads witReqSchema witCallback 3
      ["oops" ++ eofByte, "\x7b\"command\": \"go\"\x7d" ++ eofByte] =
      ([], some (.jsonDecodeError "Expecting value")) :=
  C3_malformed_request_kills_accept_loop witLoads witReqSchema witCallback 3
    ("oops" ++ eofByte) ["\x7b\"command\": \"go\"\x7d" ++ eofByte]
    (.jsonDecodeError "Expecting value") (by decide) (by decide)

/-- Counterexample to C4: on a served non-ping request the server sends exactly
the encoded response with no terminator appended (sockets.py line 171 writes
resp_data_raw, unlike lines 90 and 166), so the sent message does not consist
of the payload followed by the 0x00 terminator byte. -/
theorem C4_terminator_counterexample :
    serverConn witLoads witReqSchema witCallback 3
      ("\x7b\"command\": \"go\"\x7d" ++ eofByte) = .ok ["\x7b\"ok\": true\x7d"] ∧
      "\x7b\"ok\": true\x7d" ≠ "\x7b\"ok\": true\x7d" ++ eofByte := by
  constructor
  · decide
  · decide

/-- C4 amended: the client's request send and the server's pong reply write the
payload followed by the single 0x00 terminator, but the server's encoded
response send writes exactly the json.dumps output with no terminator appended
(the client's receive loop ends on the connection close instead). -/
theorem C4_message_terminators_amended :
    (∀ reqRaw, clientSendWire reqRaw = reqRaw ++ eofByte) ∧
      (∀ (jsonLoads : String → Except PyError PyVal) (reqSchema : Schema)
        (callback : PyVal → PyVal) (fresh : Int) (raw : String),
        stripData raw = pingReq →
        serverConn jsonLoads reqSchema callback fresh raw =
          .ok [pingResp ++ eofByte]) ∧
      (∀ (jsonLoads : String → Except PyError PyVal) (reqSchema : Schema)
        (callback : PyVal → PyVal) (fresh : Int) (raw : String)
        (sent : List String),
        stripData raw ≠ pingReq →
        serverConn jsonLoads reqSchema callback fresh raw = .ok sent →
        ∃ req respRaw, jsonDumpsDefault (callback req) = .ok respRaw ∧
          sent = [respRaw]) := by
  refine ⟨fun reqRaw => rfl, ?_, ?_⟩
  · intro jsonLoads reqSchema callback fresh raw h
    simp [serverConn, h]
  · intro jsonLoads reqSchema callback fresh raw sent hping hrun
    unfold serverConn at hrun
    rw [if_neg hping] at hrun
    cases hl : jsonLoads (stripData raw) with
    | error e => simp [hl] at hrun
    | ok j =>
      simp only [hl] at hrun
      cases j with
      | dict kvs =>
        cases hc : ctorKwargs reqSchema kvs fresh with
        | error e => simp [hc] at hrun
        | ok req =>
          simp only [hc] at hrun
          cases hd : jsonDumpsDefault (callback req) with
          | error e => simp [hd] at hrun
          | ok respRaw =>
            simp only [hd, Except.ok.injEq] at hrun
            exact ⟨req, respRaw, hd, hrun.symm⟩
      | none => simp at hrun
      | bool b => simp at hrun
      | int n => simp at hrun
      | str s => simp at hrun
      | bytes bs => simp at hrun
      | datetime d => simp at hrun
      | list xs => simp at hrun
      | set xs => simp at hrun
      | enumMember b n v => simp at hrun
      | dataclassObj fs => simp at hrun

/-- Witness for the amended C4 at concrete inputs: the client wire for a
request, the pong reply to a ping connection, and the bare response send of a
served request. -/
theorem C4_message_terminators_amended_witness :
    clientSendWire "abc" = "abc" ++ eofByte ∧
      serverConn witLoads witReqSchema witCallback 3 ("ping" ++ eofByte) =
        .ok [pingResp ++ eofByte] ∧
      ∃ req respRaw, jsonDumpsDefault (witCallback req) = .ok respRaw ∧
        ["\x7b\"ok\": true\x7d"] = [respRaw] := by
  refine ⟨C4_message_terminators_amended.1 "abc",
    C4_message_terminators_amended.2.1 witLoads witReqSchema witCallback 3
      ("ping" ++ eofByte) (by decide),
    C4_message_terminators_amended.2.2 witLoads witReqSchema witCallback 3
      ("\x7b\"command\": \"go\"\x7d" ++ eofByte) ["\x7b\"ok\": true\x7d"] (by decide) (by decide)⟩

/-- Counterexample to C6: a failing execution of _rpc whose exception is not
RPCError.  The reply {} is well-formed JSON, so reconstruction runs
APIErrorResponse(**{}) and __post_init__ raises TypeError for the absent
required error_name field; only json.JSONDecodeError is caught at sockets.py
line 125, so the TypeError reaches the caller unwrapped.  The request is a
plain dict so the encode step succeeds. -/
theorem C6_rpc_error_surface_counterexample :
    rpcModel (fun _ => .ok (.dict .nil)) witErrSchema 5 (.dict .nil)
        (fun _ => .ok "\x7b\x7d") =
      .error (.typeError "error_name must be specified") ∧
      ∀ m, PyError.typeError "error_name must be specified" ≠ .rpcError m := by
  constructor
  · decide
  · intro m h
    cases h

/-- C6 amended: the failure kinds of _rpc do not all collapse into RPCError.
A socket-level failure during the exchange and a reply that is not well-formed
JSON are wrapped into RPCError, but serialising a dataclass request raises
TypeError at the encode step before anything is sent, and a well-formed reply
that fails the bound response type's required-field check during
reconstruction raises TypeError unwrapped. -/
theorem C6_rpc_error_surface_amended :
    (∀ (jsonLoads : String → Except PyError PyVal) (respSchema : Schema)
      (fresh : Int) (fs : PyFields) (net : String → Except String String),
      rpcModel jsonLoads respSchema fresh (.dataclassObj fs) net =
        .error (.typeError "Object is not JSON serializable")) ∧
      (∀ (jsonLoads : String → Except PyError PyVal) (respSchema : Schema)
        (fresh : Int) (req : PyVal) (net : String → Except String String)
        (reqRaw oserr : String),
        jsonDumpsDefault req = .ok reqRaw →
        net (clientSendWire reqRaw) = .error oserr →
        rpcModel jsonLoads respSchema fresh req net =
          .error (.rpcError ("Socket error: " ++ oserr))) ∧
      (∀ (jsonLoads : String → Except PyError PyVal) (respSchema : Schema)
        (fresh : Int) (req : PyVal) (net : String → Except String String)
        (reqRaw raw m : String),
        jsonDumpsDefault req = .ok reqRaw →
        net (clientSendWire reqRaw) = .ok raw →
        jsonLoads (stripData raw) = .error (.jsonDecodeError m) →
        rpcModel jsonLoads respSchema fresh req net =
          .error (.rpcError ("Failed decoding json response: " ++ m))) ∧
      (∀ (jsonLoads : String → Except PyError PyVal) (respSchema : Schema)
        (fresh : Int) (req : PyVal) (net : String → Except String String)
        (reqRaw raw : String) (kvs : PyFields) (m : String),
        jsonDumpsDefault req = .ok reqRaw →
        net (clientSendWire reqRaw) = .ok raw →
        jsonLoads (stripData raw) = .ok (.dict kvs) →
        ctorKwargs respSchema kvs fresh = .error (.typeError m) →
        rpcModel jsonLoads respSchema fresh req net = .error (.typeError m)) := by
  refine ⟨?_, ?_, ?_, ?_⟩
  · intro jsonLoads respSchema fresh fs net
    simp [rpcModel, jsonDumpsDefault]
  · intro jsonLoads respSchema fresh req net reqRaw oserr hdump hnet
    simp [rpcModel, sendAndReceive, hdump, hnet]
  · intro jsonLoads respSchema fresh req net reqRaw raw m hdump hnet hloads
    simp [rpcModel, sendAndReceive, hdump, hnet, hloads]
  · intro jsonLoads respSchema fresh req net reqRaw raw kvs m hdump hnet hloads hctor
    simp [rpcModel, sendAndReceive, hdump, hnet, hloads, hctor]

/-- Witness for the amended C6: each of the four failure surfaces at a concrete
input — TypeError for a dataclass request, RPCError for a refused connection,
RPCError for a garbage reply, TypeError for a well-formed reply missing the
required error_name. -/
theorem C6_rpc_error_surface_amended_witness :
    rpcModel witLoads witErrSchema 5 (.dataclassObj .nil) (fun _ => .ok "\x7b\x7d") =
        .error (.typeError "Object is not JSON serializable") ∧
      rpcModel witLoads witErrSchema 5 (.dict .nil)
          (fun _ => .error "connection refused") =
        .error (.rpcError ("Socket error: " ++ "connection refused")) ∧
      rpcModel witLoads witErrSchema 5 (.dict .nil) (fun _ => .ok "junk") =
        .error (.rpcError ("Failed decoding json response: " ++ "Expecting value")) ∧
      rpcModel (fun _ => .ok (.dict .nil)) witErrSchema 5 (.dict .nil)
          (fun _ => .ok "\x7b\x7d") =
        .error (.typeError "error_name must be specified") := by
  refine ⟨C6_rpc_error_surface_amended.1 witLoads witErrSchema 5 .nil _,
    C6_rpc_error_surface_amended.2.1 witLoads witErrSchema 5 (.dict .nil) _
      "\x7b\x7d" "connection refused" (by decide) rfl,
    C6_rpc_error_surface_amended.2.2.1 witLoads witErrSchema 5 (.dict .nil) _
      "\x7b\x7d" "junk" "Expecting value" (by decide) rfl (by decide),
    C6_rpc_error_surface_amended.2.2.2 (fun _ => .ok (.dict .nil)) witErrSchema 5
      (.dict .nil) _ "\x7b\x7d" "\x7b\x7d" .nil "error_name must be specified"
      (by decide) rfl (by decide) (by decide)⟩

/-- Outcome of constructing a BackgroundServiceThread: the exception escaping
__init__ if any, and how many threading.Thread objects were created and
started during the attempt. -/
structure BgInitResult where
  error : Option PyError
  threadsCreated : Nat
  threadsStarted : Nat
  deriving DecidableEq, Repr

/-- Model of BackgroundServiceThread.__init__ (threads.py lines 86-107)
executed over the instance attribute dictionary, with attribute reads raising
AttributeError when the attribute has not been assigned yet.  Lines 99-101
assign _exec_fn, _exec_args and _exec_kwargs; lines 102-103 default the thread
name; line 104 assigns _thread_name = None; line 105 invokes the thread_name
setter (lines 121-129), which reads _thread_name (present), stores the new
name, and then evaluates `self._services_count[self.thread_name] += 1` — the
thread_name GETTER (lines 114-119), whose first statement reads self._thread.
_thread is first assigned only in BackgroundServiceThreadBase.__init__
(threads.py line 29), which runs at line 107, after the setter; there is no
class attribute of that name, so the read raises AttributeError.  The
continuation past that point (count increment, super().__init__ creating the
thread, the optional start) is modelled in the unreachable branch. -/
def bgThreadInit (execFn execArgs execKwargs : PyVal)
    (threadName : Option String) (start : Bool) (_safeStop : Bool) : BgInitResult :=
  let attrs : PyFields :=
    .cons "_exec_fn" execFn
      (.cons "_exec_args" execArgs
        (.cons "_exec_kwargs" execKwargs .nil))
  let tname := threadName.getD "BackgroundServiceThread"
  let attrs : PyFields := .cons "_thread_name" PyVal.none attrs
  match pyFieldsLookup attrs "_thread_name" with
  | Option.none => { error := some (.attributeError "_thread_name"),
                     threadsCreated := 0, threadsStarted := 0 }
  | some _ =>
    let attrs : PyFields := .cons "_thread_name" (.str tname) attrs
    match pyFieldsLookup attrs "_thread" with
    | Option.none => { error := some (.attributeError "_thread"),
                       threadsCreated := 0, threadsStarted := 0 }
    | some _ =>
      { error := Option.none, threadsCreated := 1,
        threadsStarted := if start then 1 else 0 }

/-- C10: for every argument combination, constructing a BackgroundServiceThread
raises AttributeError for the unassigned _thread attribute — the thread_name
setter, invoked from __init__, evaluates the thread_name getter before
BackgroundServiceThreadBase.__init__ has assigned self._thread — and no thread
is ever created or started, so no instance is ever successfully constructed. -/
theorem C10_bg_thread_init_always_raises (execFn execArgs execKwargs : PyVal)
    (threadName : Option String) (start : Bool) (_safeStop : Bool) :
    bgThreadInit execFn execArgs execKwargs threadName start _safeStop =
      { error := some (.attributeError "_thread"),
        threadsCreated := 0, threadsStarted := 0 } := by
  simp [bgThreadInit, pyFieldsLookup]

theorem pyFieldsLookup_toTreeSkipNoneFields (gs : PyFields) (k : String) :
    pyFieldsLookup (toTreeSkipNoneFields gs) k =
      (pyFieldsLookup gs k).map toTreeSkipNone := by
  match gs with
  | .nil => rfl
  | .cons n v rest =>
    simp only [toTreeSkipNoneFields, pyFieldsLookup]
    by_cases h : n = k
    · simp [h]
    · simp [h, pyFieldsLookup_toTreeSkipNoneFields rest k]

theorem pyFieldsLookup_pyAsdictFields (f : PyFields → PyFields) (fs : PyFields)
    (k : String) :
    pyFieldsLookup (pyAsdictFields f fs) k =
      (pyFieldsLookup fs k).map (pyAsdict f) := by
  match fs with
  | .nil => rfl
  | .cons n v rest =>
    simp only [pyAsdictFields, pyFieldsLookup]
    by_cases h : n = k
    · simp [h]
    · simp [h, pyFieldsLookup_pyAsdictFields f rest k]

theorem pyFieldsLookup_skipDataFields_not_mem (fs : PyFields) (k : String)
    (h : k ∉ pyFieldsNames fs) :
    pyFieldsLookup (toTreeSkipNoneDataFields fs) k = Option.none := by
  match fs with
  | .nil => rfl
  | .cons n v rest =>
    simp only [pyFieldsNames, List.mem_cons, not_or] at h
    simp only [toTreeSkipNoneDataFields]
    by_cases hv : v = PyVal.none
    · simp [hv, pyFieldsLookup_skipDataFields_not_mem rest k h.2]
    · simp [hv, pyFieldsLookup, Ne.symm h.1,
        pyFieldsLookup_skipDataFields_not_mem rest k h.2]

theorem pyFieldsLookup_skipDataFields_none (fs : PyFields) (k : String)
    (hnodup : (pyFieldsNames fs).Nodup) (hk : pyFieldsLookup fs k = some PyVal.none) :
    pyFieldsLookup (toTreeSkipNoneDataFields fs) k = Option.none := by
  match fs with
  | .nil => simp [pyFieldsLookup] at hk
  | .cons n v rest =>
    simp only [pyFieldsNames, List.nodup_cons] at hnodup
    simp only [pyFieldsLookup] at hk
    simp only [toTreeSkipNoneDataFields]
    by_cases h : n = k
    · rw [if_pos h] at hk
      injection hk with hv
      subst h
      simp [hv, pyFieldsLookup_skipDataFields_not_mem rest n hnodup.1]
    · rw [if_neg h] at hk
      by_cases hv : v = PyVal.none
      · simp [hv, pyFieldsLookup_skipDataFields_none rest k hnodup.2 hk]
      · simp [hv, pyFieldsLookup, h,
          pyFieldsLookup_skipDataFields_none rest k hnodup.2 hk]

/-- Record with one ordinary field and one absent Optional field b. -/
def witOptRecord : PyFields := .cons "a" (.str "x") (.cons "b" .none .nil)

/-- Counterexample to C8: encoding a record with an absent Optional field in
skip-none mode through the record's own serialisation path
(SerializableDataclass.to_json with JSONSkipNoneEncoder) still emits the key
mapped to null — to_dict pre-converts the record to a plain dict (models.py
line 178), so the encoder's dataclass default, the only place
dict_skip_none_factory is applied, never fires. -/
theorem C8_skipnone_counterexample :
    toJsonTreeModel toTreeSkipNone (fun kvs => kvs) [] []
        (.dataclassObj witOptRecord) =
      .dict (.cons "a" (.str "x") (.cons "b" .none .nil)) ∧
      pyFieldsLookup (.cons "a" (.str "x") (.cons "b" .none .nil)) "b" =
        some .none := by
  constructor
  · decide
  · decide

/-- C8 amended: the skip-none encoder omits an absent Optional field's key only
when it receives the dataclass object itself, json.dumps(record,
cls=JSONSkipNoneEncoder); through SerializableDataclass.to_json — which first
converts the record to a plain dict via to_dict — the key appears mapped to
null even in skip-none mode, and with the default extended encoder the key
appears mapped to null on both routes. -/
theorem C8_skipnone_amended (fs : PyFields) (k : String)
    (hnodup : (pyFieldsNames fs).Nodup)
    (hk : pyFieldsLookup fs k = some PyVal.none) :
    (∃ gs, toJsonTreeModel toTreeSkipNone (fun kvs => kvs) [] []
        (.dataclassObj fs) = .dict gs ∧ pyFieldsLookup gs k = some .none) ∧
      (∃ hs, toTreeSkipNone (.dataclassObj fs) = .dict hs ∧
        pyFieldsLookup hs k = Option.none) ∧
      (∃ is1, toJsonTreeModel toTreeExtended (fun kvs => kvs) [] []
        (.dataclassObj fs) = .dict is1 ∧ pyFieldsLookup is1 k = some .none) ∧
      (∃ is2, toTreeExtended (.dataclassObj fs) = .dict is2 ∧
        pyFieldsLookup is2 k = some .none) := by
  refine ⟨⟨toTreeSkipNoneFields (pyAsdictFields (fun kvs => kvs) fs), ?_, ?_⟩,
    ⟨toTreeSkipNoneDataFields fs, ?_, ?_⟩,
    ⟨toTreeExtendedFields (pyAsdictFields (fun kvs => kvs) fs), ?_, ?_⟩,
    ⟨toTreeExtendedFields fs, ?_, ?_⟩⟩
  · simp [toJsonTreeModel, toDictModel, pyAsdict, filterTop, filterExcluded_nil,
      toTreeSkipNone]
  · simp [pyFieldsLookup_toTreeSkipNoneFields, pyFieldsLookup_pyAsdictFields, hk,
      pyAsdict, toTreeSkipNone]
  · simp [toTreeSkipNone]
  · exact pyFieldsLookup_skipDataFields_none fs k hnodup hk
  · simp [toJsonTreeModel, toDictModel, pyAsdict, filterTop, filterExcluded_nil,
      toTreeExtended]
  · simp [pyFieldsLookup_toTreeExtendedFields, pyFieldsLookup_pyAsdictFields, hk,
      pyAsdict, toTreeExtended]
  · simp [toTreeExtended]
  · simp [pyFieldsLookup_toTreeExtendedFields, hk, toTreeExtended]

/-- Witness for the amended C8 at the concrete record: the pipeline with the
skip-none encoder keeps b as null, the direct skip-none encoding drops b, and
the extended encoder keeps b as null on both routes. -/
theorem C8_skipnone_amended_witness :
    (∃ gs, toJsonTreeModel toTreeSkipNone (fun kvs => kvs) [] []
        (.dataclassObj witOptRecord) = .dict gs ∧
        pyFieldsLookup gs "b" = some .none) ∧
      (∃ hs, toTreeSkipNone (.dataclassObj witOptRecord) = .dict hs ∧
        pyFieldsLookup hs "b" = Option.none) ∧
      (∃ is1, toJsonTreeModel toTreeExtended (fun kvs => kvs) [] []
        (.dataclassObj witOptRecord) = .dict is1 ∧
        pyFieldsLookup is1 "b" = some .none) ∧
      (∃ is2, toTreeExtended (.dataclassObj witOptRecord) = .dict is2 ∧
        pyFieldsLookup is2 "b" = some .none) :=
  C8_skipnone_amended witOptRecord "b" (by decide) (by decide)
